import Mathlib

/-!
Verification development for the native-shell layer of the weixin-reader
desktop application (src-tauri). The definitions below are shallow
embeddings of the Rust source:

* `save_settings`, `get_settings` semantics — `src/settings.rs`
* `get_current_monitor_index`, `calculate_center_position` — `src/monitor.rs`
* `build_monitor_menu_items`, `get_initial_settings`, the quit arm and the
  `move_to_monitor` arm of `on_menu_event` — `src/menu.rs`

JSON values (`serde_json::Value`) are modelled by the inductive `J`; JSON
objects are association lists with the lookup/insert/remove semantics of
`serde_json::Map` (unique keys, value replaced on insert). Machine floats
(`f64`) used by the coordinate code are modelled by `ℚ`; the Rust cast
`as i32` (truncation toward zero) is modelled by `ratTrunc`.
-/

namespace WeixinReader

/-- Model of `serde_json::Value`. Numbers are modelled as integers: every
number the settings subsystem reads or writes (`_version`, `interval`)
is an integer, read through `as_u64` / `as_i64`. -/
inductive J where
  | null
  | bool (b : Bool)
  | num (n : Int)
  | str (s : String)
  | arr (elems : List J)
  | obj (fields : List (String × J))

/-- First binding of key `k`, as in `serde_json::Map::get`. -/
def getKey : List (String × J) → String → Option J
  | [], _ => none
  | (k', v) :: rest, k => if k' = k then some v else getKey rest k

/-- Insert as in `serde_json::Map::insert`: replace the binding of `k` if present,
otherwise append a new binding. -/
def insertKey : List (String × J) → String → J → List (String × J)
  | [], k, v => [(k, v)]
  | (k', v') :: rest, k, v =>
      if k' = k then (k, v) :: rest else (k', v') :: insertKey rest k v

/-- Lookup as in `Value::get` with a string key: a lookup on objects, `None` otherwise. -/
def J.get : J → String → Option J
  | .obj fields, k => getKey fields k
  | _, _ => none

/-- Conversion `Value::as_u64` (integers only in this model). -/
def J.asU64 : J → Option Nat
  | .num n => if 0 ≤ n then some n.toNat else none
  | _ => none

/-- Conversion `Value::as_i64`. -/
def J.asI64 : J → Option Int
  | .num n => some n
  | _ => none

/-- Conversion `Value::as_bool`. -/
def J.asBool : J → Option Bool
  | .bool b => some b
  | _ => none

/-- Conversion `Value::as_object` (the bindings of an object, `None` otherwise). -/
def J.asObject : J → Option (List (String × J))
  | .obj fields => some fields
  | _ => none

/-- The read `current.get("_version").and_then(as_u64).unwrap_or(0)`
(settings.rs lines 56–58 and 115–117). -/
def docVersion (d : J) : Nat :=
  ((J.get d "_version").bind J.asU64).getD 0

/-- The allow-list of top-level settings keys (settings.rs line 75). -/
def allowedKeys : List String := ["_version", "global", "sites"]

/-- settings.rs lines 77–86: remove every top-level key outside the
allow-list (collect-then-remove is equivalent to an order-preserving
filter of the bindings). -/
def pruneDisallowed (o : List (String × J)) : List (String × J) :=
  o.filter (fun kv => allowedKeys.contains kv.1)

/-- settings.rs lines 88–93: merge the incoming bindings in order,
inserting only allow-listed keys. -/
def mergeAllowed : List (String × J) → List (String × J) → List (String × J)
  | acc, [] => acc
  | acc, (k, v) :: rest =>
      mergeAllowed (if allowedKeys.contains k then insertKey acc k v else acc) rest

/-- settings.rs lines 95–102: force `_version` to the `version` argument if
supplied, else to the incoming payload's own `_version` field if present,
else leave the merged object unchanged. -/
def forceVersion (merged newObj : List (String × J)) (version : Option Nat) :
    List (String × J) :=
  match version with
  | some ver => insertKey merged "_version" (J.num ver)
  | none =>
      match getKey newObj "_version" with
      | some v => insertKey merged "_version" v
      | none => merged

/-- settings.rs lines 68–104: the merge block runs only when both the
stored document and the incoming `settings` are JSON objects; otherwise
the stored document is written back unchanged. -/
def mergeSettings (current settings : J) (version : Option Nat) : J :=
  match current, settings with
  | .obj o, .obj newObj =>
      .obj (forceVersion (mergeAllowed (pruneDisallowed o) newObj) newObj version)
  | _, _ => current

/-- settings.rs `save_settings`, as a function from the parsed on-disk
document (`current`, the read of lines 44–53), the incoming `settings`
value and the optional `version` argument to the written document.
`none` models the rejection path (line 63 `return`): no file write occurs
and no error is raised to the caller. The I/O of lines 106–129 (create,
serialize, flush) is out of the model; an accepted write yields the
document serialized there. -/
def save_settings (current settings : J) (version : Option Nat) : Option J :=
  let currentVersion := docVersion current
  match version with
  | some newVersion =>
      if newVersion ≤ currentVersion then none
      else some (mergeSettings current settings version)
  | none => some (mergeSettings current settings none)

/-! ### Monitor model (monitor.rs) -/

/-- One entry of `available_monitors()`: physical position, physical size
and scale factor. The `f64` scale factor is modelled as a rational. -/
structure Monitor where
  posX : Int
  posY : Int
  width : Nat
  height : Nat
  scale : ℚ
deriving DecidableEq

/-- Rust `as i32` on an in-range `f64`: truncation toward zero. -/
def ratTrunc (q : ℚ) : Int :=
  Int.tdiv q.num q.den

/-- monitor.rs lines 44–71 (loop body): convert this monitor's bounds and
the window position to logical space using this monitor's own scale
factor, then test half-open containment on both axes. -/
def monitorContains (m : Monitor) (wx wy : Int) : Bool :=
  let lmx : ℚ := (m.posX : ℚ) / m.scale
  let lmy : ℚ := (m.posY : ℚ) / m.scale
  let lmw : ℚ := (m.width : ℚ) / m.scale
  let lmh : ℚ := (m.height : ℚ) / m.scale
  let lwx : ℚ := (wx : ℚ) / m.scale
  let lwy : ℚ := (wy : ℚ) / m.scale
  (decide (lmx ≤ lwx) && decide (lwx < lmx + lmw)) &&
    (decide (lmy ≤ lwy) && decide (lwy < lmy + lmh))

/-- The enumeration loop of monitor.rs lines 43–72: first monitor (in
order, indices starting at `i`) containing the position wins. -/
def locateAux (wx wy : Int) : List Monitor → Nat → Option Nat
  | [], _ => none
  | m :: rest, i =>
      if monitorContains m wx wy then some i else locateAux wx wy rest (i + 1)

/-- monitor.rs `get_current_monitor_index`: the window position read is
`Option`-valued (window missing or `outer_position()` failing), and
defaults to `(0, 0)` (lines 32–35, `unwrap_or((0, 0))`); the monitors
are the successfully enumerated snapshot. -/
def get_current_monitor_index (winPos : Option (Int × Int))
    (monitors : List Monitor) : Option Nat :=
  let p := winPos.getD (0, 0)
  locateAux p.1 p.2 monitors 0

/-- monitor.rs `calculate_center_position` (lines 155–191): window size is
in physical pixels; its logical size is truncated to `i32` first (lines
167–168); the centered position is computed in logical space and truncated
to `i32` per axis (lines 177–178). `none` when the target index is out of
range. -/
def calculate_center_position (monitorIndex : Nat) (winW winH : Nat)
    (monitors : List Monitor) : Option (Int × Int) :=
  match monitors.get? monitorIndex with
  | none => none
  | some m =>
      let scale := m.scale
      let logicalWidth : Int := ratTrunc ((winW : ℚ) / scale)
      let logicalHeight : Int := ratTrunc ((winH : ℚ) / scale)
      let lmx : ℚ := (m.posX : ℚ) / scale
      let lmy : ℚ := (m.posY : ℚ) / scale
      let lmw : ℚ := (m.width : ℚ) / scale
      let lmh : ℚ := (m.height : ℚ) / scale
      let x : Int := ratTrunc (lmx + (lmw - (logicalWidth : ℚ)) / 2)
      let y : Int := ratTrunc (lmy + (lmh - (logicalHeight : ℚ)) / 2)
      some (x, y)

/-- Spec-level `center_on` (spec §4.2), written from the spec's words:
`display.logical_origin + (display.logical_size - window_logical_size) / 2`,
computed in logical space and truncated toward zero per axis. Used only to
compare with `calculate_center_position`. -/
def center_on (m : Monitor) (winLogicalW winLogicalH : Int) : Int × Int :=
  (ratTrunc ((m.posX : ℚ) / m.scale
      + ((m.width : ℚ) / m.scale - (winLogicalW : ℚ)) / 2),
   ratTrunc ((m.posY : ℚ) / m.scale
      + ((m.height : ℚ) / m.scale - (winLogicalH : ℚ)) / 2))

/-! ### Menu model (menu.rs) -/

/-- The id `move_to_monitor_{index}` (menu.rs line 52). -/
def monitorItemId (index : Nat) : String :=
  "move_to_monitor_" ++ toString index

/-- The label `移到 “{name}”` (menu.rs lines 47–56), with the fallback
display name `显示器 {index+1}`. -/
def monitorItemLabel (index : Nat) (displayNames : List String) : String :=
  let nameStr := ((displayNames.get? index).getD
    ("显示器 " ++ toString (index + 1)))
  "移到 “" ++ nameStr ++ "”"

/-- menu.rs `build_monitor_menu_items` (lines 16–67), returning the
(id, label) pairs of the dynamic Window segment: one loop pass per
enumerated monitor index, skipping the index the main window is on.
Native item creation (`MenuItem::with_id`, line 60) is modelled as always
succeeding. -/
def build_monitor_menu_items (monitorCount : Nat)
    (currentScreenIndex : Option Nat) (displayNames : List String) :
    List (String × String) :=
  (List.range monitorCount).filterMap (fun index =>
    if currentScreenIndex = some index then none
    else some (monitorItemId index, monitorItemLabel index displayNames))

/-- menu.rs lines 526–531. -/
structure InitialSettings where
  reader_wide : Bool
  hide_toolbar : Bool
  hide_navbar : Bool
  auto_flip_active : Bool
deriving DecidableEq

/-- The auto-flip-active read shared by the quit arm (menu.rs lines
460–461) and `get_initial_settings` (lines 553–557):
`doc.get("autoFlip").and_then(as_object)`, then its `active` field via
`and_then(as_bool)`, `unwrap_or(false)`. -/
def autoFlipActive (d : J) : Bool :=
  ((((J.get d "autoFlip").bind J.asObject).bind
    (fun af => getKey af "active")).bind J.asBool).getD false

/-- menu.rs `get_initial_settings` (lines 534–575): the argument is the
parsed settings file, `none` when the file is absent, unreadable or
unparseable. All four checkbox seeds are top-level reads of the document
(`readerWide`, `hideToolbar`, `hideNavbar`, `autoFlip.active`),
defaulting to `false`. -/
def get_initial_settings (file : Option J) : InitialSettings :=
  match file with
  | some json =>
      { reader_wide := ((J.get json "readerWide").bind J.asBool).getD false
        hide_toolbar := ((J.get json "hideToolbar").bind J.asBool).getD false
        hide_navbar := ((J.get json "hideNavbar").bind J.asBool).getD false
        auto_flip_active := autoFlipActive json }
  | none =>
      { reader_wide := false
        hide_toolbar := false
        hide_navbar := false
        auto_flip_active := false }

/-- The checked states seeded into the View-section `CheckMenuItem`s on a
menu (re)build (menu.rs lines 110–120 and 257–275): `auto_flip`,
`reader_wide`, `hide_toolbar`, `hide_navbar` in menu order. -/
def view_menu_checked_states (file : Option J) : Bool × Bool × Bool × Bool :=
  let s := get_initial_settings file
  (s.auto_flip_active, s.reader_wide, s.hide_toolbar, s.hide_navbar)

/-- The update payload the quit arm builds when `autoFlip.active` is true
(menu.rs lines 460–468): `if let Some(af) = get("autoFlip").and_then(as_object)`
followed by the `active` check; `none` when no save is performed. -/
def autoFlipQuitUpdate (settings : J) : Option J :=
  ((J.get settings "autoFlip").bind J.asObject).bind (fun af =>
    if ((getKey af "active").bind J.asBool).getD false then
      some (J.obj [("autoFlip", J.obj
        [("active", J.bool false),
         ("interval", J.num (((getKey af "interval").bind J.asI64).getD 30)),
         ("keepAwake", J.bool (((getKey af "keepAwake").bind J.asBool).getD true))])])
    else none)

/-- Net effect of the quit arm (menu.rs lines 456–476) on the persisted
settings document, in a sequential model (the read of line 459 and the
re-read inside `save_settings` see the same document): if the payload is
built, it is saved with `version = None`; otherwise the document is left
alone. `save_settings` with `version = None` always commits. -/
def quit_settings_effect (current : J) : J :=
  match autoFlipQuitUpdate current with
  | none => current
  | some upd => (save_settings current upd none).getD current

/-- Observable effect of the `move_to_monitor_{N}` arm on the window and
the rebuild scheduler. -/
structure MoveOutcome where
  setPosition : Option (Int × Int)
  rebuildScheduled : Bool
deriving DecidableEq

/-- menu.rs lines 478–517, after a successful parse of `N`: re-read the
current monitor index (itself a fresh position read); if it equals the
target, return without touching the window (lines 487–490); otherwise
read the window size (`none` models a missing window or a failed
`outer_size()`), compute the centered position, set it, and schedule the
delayed full rebuild (lines 493–511). -/
def on_move_to_monitor (index : Nat) (winPos : Option (Int × Int))
    (winSize : Option (Nat × Nat)) (monitors : List Monitor) : MoveOutcome :=
  let currentScreenIndex := get_current_monitor_index winPos monitors
  if currentScreenIndex = some index then
    { setPosition := none, rebuildScheduled := false }
  else
    match winSize with
    | none => { setPosition := none, rebuildScheduled := false }
    | some (w, h) =>
        match calculate_center_position index w h monitors with
        | none => { setPosition := none, rebuildScheduled := false }
        | some p => { setPosition := some p, rebuildScheduled := true }

/-! ### Concrete instances used by witnesses and counterexamples -/

/-- A two-display topology (both scale 1), matching the spec's §8
examples: `{x:0,y:0,w:1920,h:1080}` and `{x:1920,y:0,w:2560,h:1440}`. -/
def demoTopology : List Monitor :=
  [⟨0, 0, 1920, 1080, 1⟩, ⟨1920, 0, 2560, 1440, 1⟩]

/-- A persisted document with `_version` 5, an active top-level `autoFlip`
and a legacy top-level `readerWide`. -/
def quitDemoDoc : J :=
  J.obj [("_version", J.num 5),
    ("autoFlip", J.obj [("active", J.bool true), ("interval", J.num 30),
      ("keepAwake", J.bool true)]),
    ("readerWide", J.bool true)]

/-- A document whose reader settings live only under `sites.weread`, with
no top-level `readerWide`/`hideToolbar`/`hideNavbar`/`autoFlip`. -/
def sitesOnlyDoc : J :=
  J.obj [("sites", J.obj [("weread", J.obj
    [("readerWide", J.bool true), ("hideToolbar", J.bool true),
     ("hideNavbar", J.bool true),
     ("autoFlip", J.obj [("active", J.bool true)])])])]

/-! ### Association-list lemmas -/

theorem getKey_insertKey_self (l : List (String × J)) (k : String) (v : J) :
    getKey (insertKey l k v) k = some v := by
  induction l with
  | nil => simp [insertKey, getKey]
  | cons kv rest ih =>
      obtain ⟨k', v'⟩ := kv
      by_cases h : k' = k
      · simp [insertKey, h, getKey]
      · simp [insertKey, h, getKey, ih]

theorem getKey_insertKey_of_ne (l : List (String × J)) (k kq : String) (v : J)
    (h : kq ≠ k) : getKey (insertKey l k v) kq = getKey l kq := by
  induction l with
  | nil => simp [insertKey, getKey, Ne.symm h]
  | cons kv rest ih =>
      obtain ⟨k', v'⟩ := kv
      by_cases h' : k' = k
      · subst h'
        simp [insertKey, getKey, Ne.symm h]
      · by_cases h'' : k' = kq
        · simp [insertKey, h', getKey, h'', h]
        · simp [insertKey, h', getKey, h'', ih]

theorem mem_insertKey {l : List (String × J)} {k : String} {v : J}
    {p : String × J} (h : p ∈ insertKey l k v) : p ∈ l ∨ p = (k, v) := by
  induction l with
  | nil => simpa [insertKey] using h
  | cons kv rest ih =>
      obtain ⟨k', v'⟩ := kv
      by_cases h' : k' = k
      · simp [insertKey, h'] at h
        rcases h with h | h
        · right; simpa using h
        · left; exact List.mem_cons_of_mem _ h
      · simp [insertKey, h'] at h
        rcases h with h | h
        · left; simp [h]
        · rcases ih h with h'' | h''
          · left; exact List.mem_cons_of_mem _ h''
          · right; exact h''

theorem getKey_eq_some_mem {l : List (String × J)} {k : String} {v : J}
    (h : getKey l k = some v) : (k, v) ∈ l := by
  induction l with
  | nil => simp [getKey] at h
  | cons kv rest ih =>
      obtain ⟨k', v'⟩ := kv
      by_cases h' : k' = k
      · subst h'
        simp [getKey] at h
        simp [h]
      · simp [getKey, h'] at h
        exact List.mem_cons_of_mem _ (ih h)

theorem getKey_filter_pos (P : String → Bool) (l : List (String × J))
    (k : String) (hk : P k = true) :
    getKey (l.filter (fun kv => P kv.1)) k = getKey l k := by
  induction l with
  | nil => simp
  | cons kv rest ih =>
      obtain ⟨k', v'⟩ := kv
      by_cases h' : k' = k
      · subst h'
        simp [List.filter_cons, hk, getKey]
      · by_cases hp : P k' = true
        · simp [List.filter_cons, hp, getKey, h', ih]
        · simp [List.filter_cons, hp, getKey, h', ih]

theorem getKey_filter_neg (P : String → Bool) (l : List (String × J))
    (k : String) (hk : P k = false) :
    getKey (l.filter (fun kv => P kv.1)) k = none := by
  induction l with
  | nil => simp [getKey]
  | cons kv rest ih =>
      obtain ⟨k', v'⟩ := kv
      by_cases hp : P k' = true
      · have h' : k' ≠ k := by
          intro h
          rw [h, hk] at hp
          exact Bool.false_ne_true hp
        simp [List.filter_cons, hp, getKey, h', ih]
      · simp [List.filter_cons, hp, ih]

theorem getKey_mergeAllowed_of_absent (m : List (String × J))
    (acc : List (String × J)) (k : String) (h : getKey m k = none) :
    getKey (mergeAllowed acc m) k = getKey acc k := by
  induction m generalizing acc with
  | nil => simp [mergeAllowed]
  | cons kv rest ih =>
      obtain ⟨k₁, v₁⟩ := kv
      have hne : k₁ ≠ k := by
        intro he
        simp [getKey, he] at h
      have hrest : getKey rest k = none := by
        simpa [getKey, hne] using h
      rw [mergeAllowed, ih _ hrest]
      by_cases ha : k₁ ∈ allowedKeys
      · rw [if_pos (by simpa using ha)]
        exact getKey_insertKey_of_ne _ _ _ _ (Ne.symm hne)
      · rw [if_neg (by simpa using ha)]

theorem mergeAllowed_keys_allowed (m : List (String × J))
    (acc : List (String × J))
    (hacc : ∀ p ∈ acc, p.1 ∈ allowedKeys) :
    ∀ p ∈ mergeAllowed acc m, p.1 ∈ allowedKeys := by
  induction m generalizing acc with
  | nil => simpa [mergeAllowed] using hacc
  | cons kv rest ih =>
      obtain ⟨k₁, v₁⟩ := kv
      rw [mergeAllowed]
      by_cases ha : k₁ ∈ allowedKeys
      · rw [if_pos (by simpa using ha)]
        refine ih _ ?_
        intro p hp
        rcases mem_insertKey hp with h | h
        · exact hacc p h
        · rw [h]; exact ha
      · rw [if_neg (by simpa using ha)]
        exact ih _ hacc

theorem pruneDisallowed_keys_allowed (o : List (String × J)) :
    ∀ p ∈ pruneDisallowed o, p.1 ∈ allowedKeys := by
  intro p hp
  simpa using (List.mem_filter.mp hp).2

/-! ### Settings store: accepted writes -/

theorem save_settings_accepted {current settings : J} {ver : Option Nat}
    {d : J} (h : save_settings current settings ver = some d) :
    d = mergeSettings current settings ver := by
  cases ver with
  | none => simpa [save_settings] using h.symm
  | some n =>
      by_cases hle : n ≤ docVersion current
      · simp [save_settings, hle] at h
      · simp [save_settings, hle] at h
        exact h.symm

/-- Claim C1: with `expected_version = some N` against a stored document of
current version `V`, `save_settings` rejects the write when `N ≤ V` (no
file write happens, nothing is raised to the caller) and accepts it when
`N > V`, with `N` becoming the stored `_version`. The witness instantiates
the spec's scenario: writing version 6 over stored version 5 is accepted,
after which writing 5 or 6 again is rejected, leaving version 6 stored. -/
theorem save_settings_version_gate (o m : List (String × J)) (N : Nat) :
    (N ≤ docVersion (J.obj o) →
      save_settings (J.obj o) (J.obj m) (some N) = none)
    ∧ (docVersion (J.obj o) < N →
      ∃ d, save_settings (J.obj o) (J.obj m) (some N) = some d
        ∧ docVersion d = N) := by
  constructor
  · intro h
    simp [save_settings, h]
  · intro h
    refine ⟨mergeSettings (J.obj o) (J.obj m) (some N), ?_, ?_⟩
    · simp [save_settings, Nat.not_le.mpr h]
    · show docVersion (J.obj (forceVersion
        (mergeAllowed (pruneDisallowed o) m) m (some N))) = N
      simp [docVersion, J.get, forceVersion, getKey_insertKey_self, J.asU64]

/-- Witness for C1 at the spec's concrete scenario (stored version 5,
then 6, then rejected 5 and 6). -/
theorem save_settings_version_gate_witness :
    (docVersion (J.obj [("_version", J.num 5)]) < 6
      ∧ ∃ d, save_settings (J.obj [("_version", J.num 5)]) (J.obj []) (some 6)
          = some d ∧ docVersion d = 6)
    ∧ (6 ≤ docVersion (J.obj [("_version", J.num 6)])
      ∧ save_settings (J.obj [("_version", J.num 6)]) (J.obj []) (some 6) = none)
    ∧ (5 ≤ docVersion (J.obj [("_version", J.num 6)])
      ∧ save_settings (J.obj [("_version", J.num 6)]) (J.obj []) (some 5) = none) := by
  refine ⟨⟨by decide, ?_⟩, ⟨by decide, ?_⟩, ⟨by decide, ?_⟩⟩
  · exact (save_settings_version_gate [("_version", J.num 5)] [] 6).2 (by decide)
  · exact (save_settings_version_gate [("_version", J.num 6)] [] 6).1 (by decide)
  · exact (save_settings_version_gate [("_version", J.num 6)] [] 5).1 (by decide)

/-- Claim C2: every accepted write (of an object update over an object
store) writes back a document whose top-level key set is contained in the
allow-list `{_version, global, sites}`: any legacy top-level key on disk
(e.g. `readerWide`) is removed whether or not the update mentions it, and
incoming keys outside the allow-list are never written. -/
theorem save_settings_allowlist (o m : List (String × J)) (ver : Option Nat)
    (d : J) (h : save_settings (J.obj o) (J.obj m) ver = some d) :
    ∃ fields, d = J.obj fields
      ∧ (∀ p ∈ fields, p.1 ∈ allowedKeys)
      ∧ ∀ k, k ∉ allowedKeys → J.get d k = none := by
  have hd : d = J.obj (forceVersion (mergeAllowed (pruneDisallowed o) m) m ver) :=
    save_settings_accepted h
  have hmerged : ∀ p ∈ mergeAllowed (pruneDisallowed o) m, p.1 ∈ allowedKeys :=
    mergeAllowed_keys_allowed m _ (pruneDisallowed_keys_allowed o)
  have hfields : ∀ p ∈ forceVersion (mergeAllowed (pruneDisallowed o) m) m ver,
      p.1 ∈ allowedKeys := by
    intro p hp
    cases ver with
    | some n =>
        rcases mem_insertKey (by simpa [forceVersion] using hp) with h' | h'
        · exact hmerged p h'
        · rw [h']
          show "_version" ∈ allowedKeys
          decide
    | none =>
        cases hm : getKey m "_version" with
        | some v =>
            rcases mem_insertKey (by simpa [forceVersion, hm] using hp) with h' | h'
            · exact hmerged p h'
            · rw [h']
              show "_version" ∈ allowedKeys
              decide
        | none => exact hmerged p (by simpa [forceVersion, hm] using hp)
  refine ⟨forceVersion (mergeAllowed (pruneDisallowed o) m) m ver, hd, hfields, ?_⟩
  intro k hk
  rw [hd]
  show getKey (forceVersion (mergeAllowed (pruneDisallowed o) m) m ver) k = none
  cases hg : getKey (forceVersion (mergeAllowed (pruneDisallowed o) m) m ver) k with
  | none => rfl
  | some v => exact absurd (hfields _ (getKey_eq_some_mem hg)) hk

/-- Witness for C2: an accepted versionless write whose store holds a
legacy `readerWide` and whose update carries a disallowed `junk` key;
the written document holds only allow-listed keys. -/
theorem save_settings_allowlist_witness :
    ∃ fields, (J.obj [("_version", J.num 1), ("global", J.obj [])]) = J.obj fields
      ∧ (∀ p ∈ fields, p.1 ∈ allowedKeys)
      ∧ ∀ k, k ∉ allowedKeys →
          J.get (J.obj [("_version", J.num 1), ("global", J.obj [])]) k = none :=
  save_settings_allowlist [("_version", J.num 1), ("readerWide", J.bool true)]
    [("global", J.obj []), ("junk", J.num 3)] none
    (J.obj [("_version", J.num 1), ("global", J.obj [])]) rfl

/-- Claim C8: on an accepted write, the stored `_version` is the
`expected_version` argument when supplied, else the incoming document's
own top-level `_version` field when present, else the previously stored
`_version` unchanged. -/
theorem save_settings_version_choice (o m : List (String × J))
    (ver : Option Nat) (d : J)
    (h : save_settings (J.obj o) (J.obj m) ver = some d) :
    (∀ n, ver = some n → J.get d "_version" = some (J.num n))
    ∧ (∀ v, ver = none → getKey m "_version" = some v →
        J.get d "_version" = some v)
    ∧ (ver = none → getKey m "_version" = none →
        J.get d "_version" = getKey o "_version") := by
  have hd : d = J.obj (forceVersion (mergeAllowed (pruneDisallowed o) m) m ver) :=
    save_settings_accepted h
  refine ⟨?_, ?_, ?_⟩
  · intro n hn
    subst hn
    rw [hd]
    simp [forceVersion, J.get, getKey_insertKey_self]
  · intro v hn hm
    subst hn
    rw [hd]
    simp [forceVersion, hm, J.get, getKey_insertKey_self]
  · intro hn hm
    subst hn
    rw [hd]
    show getKey (forceVersion (mergeAllowed (pruneDisallowed o) m) m none)
        "_version" = getKey o "_version"
    rw [forceVersion, hm, getKey_mergeAllowed_of_absent _ _ _ hm]
    exact getKey_filter_pos _ _ _ (by decide)

/-- Witness for C8: an accepted write carrying `expected_version = 7`
forces the stored `_version` to 7. -/
theorem save_settings_version_choice_witness :
    J.get (J.obj [("_version", J.num 7)]) "_version" = some (J.num 7) :=
  (save_settings_version_choice [("_version", J.num 1)] [] (some 7)
    (J.obj [("_version", J.num 7)]) rfl).1 7 rfl

/-! ### Monitor location -/

theorem locateAux_eq_none_iff (wx wy : Int) (ms : List Monitor) (i : Nat) :
    locateAux wx wy ms i = none ↔ ∀ m ∈ ms, monitorContains m wx wy = false := by
  induction ms generalizing i with
  | nil => simp [locateAux]
  | cons m rest ih =>
      by_cases h : monitorContains m wx wy = true
      · simp [locateAux, h]
      · simp only [Bool.not_eq_true] at h
        simp [locateAux, h, ih (i + 1)]

theorem locateAux_first (wx wy : Int) (ms : List Monitor) (i k : Nat)
    (hk : k < ms.length)
    (hc : monitorContains (ms.get ⟨k, hk⟩) wx wy = true)
    (hb : ∀ j (hj : j < ms.length), j < k →
      monitorContains (ms.get ⟨j, hj⟩) wx wy = false) :
    locateAux wx wy ms i = some (i + k) := by
  induction ms generalizing i k with
  | nil => simp at hk
  | cons m rest ih =>
      cases k with
      | zero =>
          have hm : monitorContains m wx wy = true := hc
          simp [locateAux, hm]
      | succ k' =>
          have hm : monitorContains m wx wy = false := by
            have := hb 0 (Nat.succ_pos _) (Nat.succ_pos k')
            simpa using this
          have hk' : k' < rest.length := Nat.lt_of_succ_lt_succ hk
          have hc' : monitorContains (rest.get ⟨k', hk'⟩) wx wy = true := hc
          have hb' : ∀ j (hj : j < rest.length), j < k' →
              monitorContains (rest.get ⟨j, hj⟩) wx wy = false := by
            intro j hj hlt
            have := hb (j + 1) (Nat.succ_lt_succ hj) (Nat.succ_lt_succ hlt)
            simpa using this
          rw [locateAux]
          rw [if_neg (by simp [hm])]
          rw [ih (i + 1) k' hk' hc' hb']
          simp only [Option.some.injEq]
          omega

/-- Claim C3: `get_current_monitor_index` converts each display's bounds
and the window position to logical space with that display's own scale
factor and tests half-open containment (all inside `monitorContains`);
it returns the index of the first containing display in enumeration
order, `none` when no display contains the position, and for a position
contained in exactly one display it returns that display's index. -/
theorem locate_first_match (ms : List Monitor) (wx wy : Int) :
    (get_current_monitor_index (some (wx, wy)) ms = none
      ↔ ∀ m ∈ ms, monitorContains m wx wy = false)
    ∧ (∀ k (hk : k < ms.length),
        monitorContains (ms.get ⟨k, hk⟩) wx wy = true →
        (∀ j (hj : j < ms.length), j < k →
          monitorContains (ms.get ⟨j, hj⟩) wx wy = false) →
        get_current_monitor_index (some (wx, wy)) ms = some k)
    ∧ (∀ k (hk : k < ms.length),
        monitorContains (ms.get ⟨k, hk⟩) wx wy = true →
        (∀ j (hj : j < ms.length), j ≠ k →
          monitorContains (ms.get ⟨j, hj⟩) wx wy = false) →
        get_current_monitor_index (some (wx, wy)) ms = some k) := by
  refine ⟨?_, ?_, ?_⟩
  · simpa [get_current_monitor_index] using locateAux_eq_none_iff wx wy ms 0
  · intro k hk hc hb
    simpa [get_current_monitor_index] using locateAux_first wx wy ms 0 k hk hc hb
  · intro k hk hc hb
    have hb' : ∀ j (hj : j < ms.length), j < k →
        monitorContains (ms.get ⟨j, hj⟩) wx wy = false := by
      intro j hj hlt
      exact hb j hj (Nat.ne_of_lt hlt)
    simpa [get_current_monitor_index] using locateAux_first wx wy ms 0 k hk hc hb'

/-- Witness for C3 on the two-display demo topology: `(100, 100)` lies
strictly inside display 0 only, `(5000, 5000)` lies outside both. -/
theorem locate_first_match_witness :
    get_current_monitor_index (some (100, 100)) demoTopology = some 0
    ∧ get_current_monitor_index (some (5000, 5000)) demoTopology = none := by
  constructor
  · refine (locate_first_match demoTopology 100 100).2.2 0 (by norm_num [demoTopology]) ?_ ?_
    · show monitorContains ⟨0, 0, 1920, 1080, 1⟩ 100 100 = true
      simp [monitorContains]
      norm_num
    · intro j hj hne
      have hj' : j = 1 := by
        simp [demoTopology] at hj
        omega
      subst hj'
      show monitorContains ⟨1920, 0, 2560, 1440, 1⟩ 100 100 = false
      simp [monitorContains]
      norm_num
  · refine (locate_first_match demoTopology 5000 5000).1.mpr ?_
    intro m hm
    rcases (by simpa [demoTopology] using hm :
        m = (⟨0, 0, 1920, 1080, 1⟩ : Monitor) ∨
        m = (⟨1920, 0, 2560, 1440, 1⟩ : Monitor)) with h | h <;>
      · subst h
        simp [monitorContains]
        norm_num

/-- Claim C10 (implicit): when the main window or its position cannot be
read, `get_current_monitor_index` substitutes physical position `(0, 0)`
rather than failing; for every topology in which some display contains the
origin (first such display at index `k`) it returns `some k`, and it
returns `none` only when no display contains the substituted position. -/
theorem locate_defaults_to_origin (ms : List Monitor) :
    get_current_monitor_index none ms
      = get_current_monitor_index (some (0, 0)) ms
    ∧ (∀ k (hk : k < ms.length),
        monitorContains (ms.get ⟨k, hk⟩) 0 0 = true →
        (∀ j (hj : j < ms.length), j < k →
          monitorContains (ms.get ⟨j, hj⟩) 0 0 = false) →
        get_current_monitor_index none ms = some k)
    ∧ (get_current_monitor_index none ms = none
      ↔ ∀ m ∈ ms, monitorContains m 0 0 = false) := by
  refine ⟨rfl, ?_, ?_⟩
  · intro k hk hc hb
    simpa [get_current_monitor_index] using locateAux_first 0 0 ms 0 k hk hc hb
  · simpa [get_current_monitor_index] using locateAux_eq_none_iff 0 0 ms 0

/-- Witness for C10: with the window position unreadable, the demo
topology's display 0 contains the substituted origin and is returned. -/
theorem locate_defaults_to_origin_witness :
    get_current_monitor_index none demoTopology = some 0 := by
  refine (locate_defaults_to_origin demoTopology).2.1 0 (by norm_num [demoTopology]) ?_ ?_
  · show monitorContains ⟨0, 0, 1920, 1080, 1⟩ 0 0 = true
    norm_num [monitorContains]
  · intro j hj hlt
    exact absurd hlt (Nat.not_lt_zero j)

/-! ### Centered placement -/

/-- Claim C4: `calculate_center_position` computes, in logical space,
`display.logical_origin + (display.logical_size - window_logical_size) / 2`
truncated toward zero per axis (the window's logical size itself being the
truncation of physical size over the target display's scale factor), i.e.
it agrees with the spec-level `center_on`; concretely, centering an
800×600 window on `{x:0,y:0,w:1920,h:1080}` yields `(560, 240)` and on
`{x:1920,y:0,w:2560,h:1440}` yields `(2800, 420)`. -/
theorem center_position_spec (ms : List Monitor) (idx : Nat) (m : Monitor)
    (wW wH : Nat) (hm : ms.get? idx = some m) :
    calculate_center_position idx wW wH ms
      = some (center_on m (ratTrunc ((wW : ℚ) / m.scale))
          (ratTrunc ((wH : ℚ) / m.scale)))
    ∧ calculate_center_position 0 800 600 [⟨0, 0, 1920, 1080, 1⟩]
      = some (560, 240)
    ∧ calculate_center_position 0 800 600 [⟨1920, 0, 2560, 1440, 1⟩]
      = some (2800, 420) := by
  refine ⟨?_, ?_, ?_⟩
  · have hm' : ms[idx]? = some m := by simpa using hm
    simp [calculate_center_position, hm', center_on]
  · simp [calculate_center_position, ratTrunc]
    norm_num
  · simp [calculate_center_position, ratTrunc]
    norm_num

/-- Witness for C4: the refinement applied to the first concrete display. -/
theorem center_position_spec_witness :
    calculate_center_position 0 800 600 [⟨0, 0, 1920, 1080, 1⟩]
      = some (center_on ⟨0, 0, 1920, 1080, 1⟩
          (ratTrunc ((800 : ℚ) / 1)) (ratTrunc ((600 : ℚ) / 1))) :=
  (center_position_spec [⟨0, 0, 1920, 1080, 1⟩] 0 ⟨0, 0, 1920, 1080, 1⟩
    800 600 rfl).1

/-! ### Dynamic monitor menu segment -/

/-- Claim C5: the dynamic Window segment holds exactly one item per display
index in `0..n` excluding the current index, in ascending index order,
with ids `move_to_monitor_{index}`; with 3 displays and current index 1
the ids are exactly `move_to_monitor_0` and `move_to_monitor_2`, in that
order. -/
theorem monitor_menu_item_ids (n c : Nat) (names : List String) :
    (build_monitor_menu_items n (some c) names).map Prod.fst
      = ((List.range n).filter (fun i => i ≠ c)).map monitorItemId := by
  induction n with
  | zero => rfl
  | succ n ih =>
      rw [build_monitor_menu_items, List.range_succ, List.filterMap_append,
        List.filter_append, List.map_append, List.map_append,
        ← build_monitor_menu_items, ih]
      by_cases h : n = c
      · simp [h]
      · simp [h, Ne.symm h]

theorem monitor_menu_items_spec (n c : Nat) (names : List String) :
    (build_monitor_menu_items n (some c) names).map Prod.fst
      = ((List.range n).filter (fun i => i ≠ c)).map monitorItemId
    ∧ (build_monitor_menu_items 3 (some 1) names).map Prod.fst
      = ["move_to_monitor_0", "move_to_monitor_2"] := by
  refine ⟨monitor_menu_item_ids n c names, ?_⟩
  rw [monitor_menu_item_ids 3 1 names]
  decide

/-! ### The move-to-monitor menu action -/

/-- Claim C9: activating `move_to_monitor_{N}` when `N` is the window's
current monitor index is a no-op (no position-set call, no rebuild);
otherwise the handler reads the window size, computes the centered
position on display `N`, sets the window position and schedules the
delayed full menu rebuild. -/
theorem move_to_monitor_spec (index : Nat) (winPos : Option (Int × Int))
    (w h : Nat) (ms : List Monitor) :
    (get_current_monitor_index winPos ms = some index →
      on_move_to_monitor index winPos (some (w, h)) ms
        = { setPosition := none, rebuildScheduled := false })
    ∧ (get_current_monitor_index winPos ms ≠ some index →
      ∀ p, calculate_center_position index w h ms = some p →
        on_move_to_monitor index winPos (some (w, h)) ms
          = { setPosition := some p, rebuildScheduled := true }) := by
  constructor
  · intro hcur
    simp [on_move_to_monitor, hcur]
  · intro hcur p hp
    simp [on_move_to_monitor, hcur, hp]

/-- Witness for C9 on the demo topology with the window on display 0:
moving to display 0 is a no-op; moving to display 1 centers the 800×600
window there and schedules a rebuild. -/
theorem move_to_monitor_spec_witness :
    on_move_to_monitor 0 (some (100, 100)) (some (800, 600)) demoTopology
      = { setPosition := none, rebuildScheduled := false }
    ∧ on_move_to_monitor 1 (some (100, 100)) (some (800, 600)) demoTopology
      = { setPosition := some (2800, 420), rebuildScheduled := true } := by
  have hloc : get_current_monitor_index (some (100, 100)) demoTopology = some 0 := by
    simp [get_current_monitor_index, demoTopology, locateAux, monitorContains]
    norm_num
  constructor
  · exact (move_to_monitor_spec 0 (some (100, 100)) 800 600 demoTopology).1 hloc
  · refine (move_to_monitor_spec 1 (some (100, 100)) 800 600 demoTopology).2
      ?_ (2800, 420) ?_
    · rw [hloc]
      simp
    · simp [calculate_center_position, demoTopology, ratTrunc]
      norm_num

/-! ### The quit arm and the auto-flip toggle -/

theorem autoFlipActive_of_update_none {d : J}
    (h : autoFlipQuitUpdate d = none) : autoFlipActive d = false := by
  unfold autoFlipQuitUpdate at h
  unfold autoFlipActive
  cases haf : (J.get d "autoFlip").bind J.asObject with
  | none => simp [haf]
  | some af =>
      rw [haf] at h
      simp only [Option.some_bind] at h
      by_cases hact : ((getKey af "active").bind J.asBool).getD false = true
      · rw [if_pos hact] at h
        exact absurd h (by simp)
      · simp only [haf, Option.some_bind]
        simpa using hact

theorem autoFlipQuitUpdate_shape {d upd : J}
    (h : autoFlipQuitUpdate d = some upd) :
    ∃ af2, upd = J.obj [("autoFlip", af2)] := by
  unfold autoFlipQuitUpdate at h
  cases haf : (J.get d "autoFlip").bind J.asObject with
  | none =>
      rw [haf] at h
      exact absurd h (by simp)
  | some af =>
      rw [haf] at h
      simp only [Option.some_bind] at h
      by_cases hact : ((getKey af "active").bind J.asBool).getD false = true
      · rw [if_pos hact] at h
        exact ⟨_, (Option.some.inj h).symm⟩
      · rw [if_neg hact] at h
        exact absurd h (by simp)

/-- Counterexample for C6 at `quitDemoDoc` (stored version 5, top-level
active `autoFlip`, legacy `readerWide`): the quit arm does perform a save,
yet the stored `_version` stays 5 — no version bump — and the write also
deletes the `autoFlip` and `readerWide` keys outright, so fields other
than the toggle change as well. -/
theorem quit_no_version_bump :
    autoFlipActive quitDemoDoc = true
    ∧ (autoFlipQuitUpdate quitDemoDoc).isSome = true
    ∧ docVersion quitDemoDoc = 5
    ∧ docVersion (quit_settings_effect quitDemoDoc) = 5
    ∧ J.get (quit_settings_effect quitDemoDoc) "autoFlip" = none
    ∧ J.get (quit_settings_effect quitDemoDoc) "readerWide" = none :=
  ⟨rfl, rfl, rfl, rfl, rfl, rfl⟩

/-- Claim C6 (amended): on quit, if the persisted document's top-level
`autoFlip.active` is set, the handler saves an update marking it inactive
with `version = None`; the allow-list merge then drops the `autoFlip` key
entirely and leaves `_version` unchanged (no version bump). In all cases
a later read of the persisted settings never shows the auto-flip toggle
active. -/
theorem quit_clears_auto_flip (o : List (String × J)) :
    autoFlipActive (quit_settings_effect (J.obj o)) = false
    ∧ docVersion (quit_settings_effect (J.obj o)) = docVersion (J.obj o) := by
  cases hupd : autoFlipQuitUpdate (J.obj o) with
  | none =>
      have heff : quit_settings_effect (J.obj o) = J.obj o := by
        unfold quit_settings_effect
        rw [hupd]
      rw [heff]
      exact ⟨autoFlipActive_of_update_none hupd, rfl⟩
  | some upd =>
      obtain ⟨af2, rfl⟩ := autoFlipQuitUpdate_shape hupd
      have heff : quit_settings_effect (J.obj o) = J.obj (pruneDisallowed o) := by
        unfold quit_settings_effect
        rw [hupd]
        rfl
      rw [heff]
      constructor
      · have hnone : getKey (pruneDisallowed o) "autoFlip" = none :=
          getKey_filter_neg _ _ _ (by decide)
        simp [autoFlipActive, J.get, hnone]
      · have hsame : getKey (pruneDisallowed o) "_version" = getKey o "_version" :=
          getKey_filter_pos _ _ _ (by decide)
        simp [docVersion, J.get, hsame]

/-! ### Seeding the View-section checkboxes -/

/-- Counterexample for C7 at `sitesOnlyDoc`: all reader flags are `true`
under `sites.weread`, yet every View-section checkbox seeds unchecked —
`get_initial_settings` reads top-level keys, not
`settings.sites.<active_site>`. -/
theorem menu_seed_ignores_sites :
    ((J.get sitesOnlyDoc "sites").bind (fun s => J.get s "weread")).bind
        (fun w => J.get w "readerWide") = some (J.bool true)
    ∧ (((J.get sitesOnlyDoc "sites").bind (fun s => J.get s "weread")).bind
        (fun w => (J.get w "autoFlip").bind (fun af => J.get af "active")))
      = some (J.bool true)
    ∧ get_initial_settings (some sitesOnlyDoc)
      = { reader_wide := false, hide_toolbar := false, hide_navbar := false,
          auto_flip_active := false } :=
  ⟨rfl, rfl, rfl⟩

/-- Claim C7 (amended): the View-section checkable items (wide reader,
hide toolbar, hide navbar, auto-flip) are seeded from the TOP-LEVEL
fields `readerWide`, `hideToolbar`, `hideNavbar` and `autoFlip.active`
of the settings document — not from `settings.sites.<active_site>` —
defaulting to unchecked/false when those fields are absent or the file
is missing or unparseable. -/
theorem menu_seed_from_top_level (o : List (String × J)) :
    view_menu_checked_states (some (J.obj o))
      = (autoFlipActive (J.obj o),
         ((getKey o "readerWide").bind J.asBool).getD false,
         ((getKey o "hideToolbar").bind J.asBool).getD false,
         ((getKey o "hideNavbar").bind J.asBool).getD false)
    ∧ (getKey o "readerWide" = none →
        (get_initial_settings (some (J.obj o))).reader_wide = false)
    ∧ (getKey o "hideToolbar" = none →
        (get_initial_settings (some (J.obj o))).hide_toolbar = false)
    ∧ (getKey o "hideNavbar" = none →
        (get_initial_settings (some (J.obj o))).hide_navbar = false)
    ∧ (getKey o "autoFlip" = none →
        (get_initial_settings (some (J.obj o))).auto_flip_active = false)
    ∧ view_menu_checked_states none = (false, false, false, false) := by
  refine ⟨rfl, ?_, ?_, ?_, ?_, rfl⟩
  · intro h
    simp [get_initial_settings, J.get, h]
  · intro h
    simp [get_initial_settings, J.get, h]
  · intro h
    simp [get_initial_settings, J.get, h]
  · intro h
    simp [get_initial_settings, autoFlipActive, J.get, h]

/-- Witness for the amended C7 at the empty document: every checkbox
defaults to unchecked. -/
theorem menu_seed_from_top_level_witness :
    (get_initial_settings (some (J.obj []))).reader_wide = false
    ∧ (get_initial_settings (some (J.obj []))).hide_toolbar = false
    ∧ (get_initial_settings (some (J.obj []))).hide_navbar = false
    ∧ (get_initial_settings (some (J.obj []))).auto_flip_active = false :=
  ⟨(menu_seed_from_top_level []).2.1 rfl,
   (menu_seed_from_top_level []).2.2.1 rfl,
   (menu_seed_from_top_level []).2.2.2.1 rfl,
   (menu_seed_from_top_level []).2.2.2.2.1 rfl⟩

end WeixinReader
